import Mathlib

/-!
# Verification of the prediction data-preparation and evaluation pipeline

Shallow embedding of `gamestonk_terminal/common/prediction_techniques/pred_helper.py`:
the `prepare_scale_train_valid_test` windowing/scaling/splitting stage (together with
the sklearn `train_test_split` it calls), the `forecast` stage, and the KPI scoring
stage (`mean_absolute_percentage_error`, the sklearn metrics and
`print_prediction_kpis`).

Prices are embedded as exact rationals and dates as naturals.  Elementwise scaling
commutes with every slicing and index-selection step the pipeline performs, so the
pipeline below carries the raw price windows together with the fitted scaler;
the scaled arrays the Python function returns are recovered by mapping the fitted
transform over the raw windows (`scaledList`).
-/

namespace PredHelper

/-- Sum of a list of rationals. -/
def qsum (xs : List ℚ) : ℚ := xs.foldr (· + ·) 0

/-- Arithmetic mean as computed by numpy and sklearn: sum divided by length.
(In `ℚ` the empty mean is `0/0 = 0`; numpy would produce `nan`, but no claim
reaches that case through this function.) -/
def qmean (xs : List ℚ) : ℚ := qsum xs / xs.length

/-- Minimum of a nonempty list (what `MinMaxScaler` fits as `data_min_`). -/
def listMin (xs : List ℚ) : ℚ := xs.foldr min (xs.headD 0)

/-- Maximum of a nonempty list (what `MinMaxScaler` fits as `data_max_`). -/
def listMax (xs : List ℚ) : ℚ := xs.foldr max (xs.headD 0)

/-- Population variance (ddof = 0), the quantity `StandardScaler` fits. -/
def popVar (xs : List ℚ) : ℚ := qmean (xs.map (fun x => (x - qmean xs) ^ 2))

/-- Closed enumeration of the `PREPROCESSER` configuration values dispatched on
by `prepare_scale_train_valid_test` (pred_helper.py lines 268-278).  The
configuration constant `cfg.Preprocess` lives outside the pipeline, so the mode
is a parameter here. -/
inductive ScalerKind where
  | standardization
  | minmax
  | normalization
  | none
  deriving DecidableEq, Repr

/-- Fitted state of the selected sklearn scaler: `StandardScaler` stores the
fitted mean and population variance, `MinMaxScaler` the fitted data minimum and
maximum; `Normalizer` is stateless. -/
inductive Scaler where
  | standard (mean variance : ℚ)
  | minmax (dataMin dataMax : ℚ)
  | normalizer
  deriving DecidableEq, Repr

/-- Fitting step of the scaler on a column vector; pred_helper.py line 309
performs it via `scaler.fit_transform(data.values.reshape(-1, 1))`.  Returns
the fitted state, or `none` when no scaling is active.  (sklearn would raise on
an empty input array; the fitted statistics of an empty list are never used by
any claim.) -/
def fitScaler : ScalerKind → List ℚ → Option Scaler
  | .standardization, xs => Option.some (.standard (qmean xs) (popVar xs))
  | .minmax, xs => Option.some (.minmax (listMin xs) (listMax xs))
  | .normalization, _ => Option.some .normalizer
  | .none, _ => Option.none

/-- Scale denominator of a fitted `StandardScaler`: the square root of the
fitted variance, with a zero scale replaced by 1 (`_handle_zeros_in_scale`). -/
noncomputable def stdScale (variance : ℚ) : ℝ :=
  if variance = 0 then 1 else Real.sqrt (variance : ℝ)

/-- Forward transform of the fitted scaler on one value, exactly as sklearn
computes it (the `StandardScaler` divisor is a real square root, hence `ℝ`).
For `MinMaxScaler`: `(x - min) / (max - min)` with a zero range replaced by 1.
For `Normalizer` on the `reshape(-1, 1)` column layout every row is a single
value, so row normalisation maps `x` to `x / |x|` and leaves zero rows at 0. -/
noncomputable def Scaler.transform : Scaler → ℚ → ℝ
  | .standard m v, x => ((x - m : ℚ) : ℝ) / stdScale v
  | .minmax a b, x => (((x - a) / (if b - a = 0 then 1 else b - a) : ℚ) : ℝ)
  | .normalizer, x => ((if x = 0 then 0 else x / |x| : ℚ) : ℝ)

/-- Scaled view of a raw array: the Python pipeline returns
`scaler.transform` of every value when a scaler is active and the raw values
otherwise (pred_helper.py lines 308-313). -/
noncomputable def scaledList : Option Scaler → List ℚ → List ℝ
  | Option.none, xs => xs.map (fun q => (q : ℝ))
  | Option.some s, xs => xs.map s.transform

/-- Inverse transform (`scaler.inverse_transform`): defined for
`StandardScaler` and `MinMaxScaler`; `Normalizer` implements no inverse
(calling it raises `AttributeError`). -/
noncomputable def Scaler.inverse : Scaler → Option (ℝ → ℝ)
  | .standard m v => Option.some (fun y => y * stdScale v + (m : ℝ))
  | .minmax a b =>
    Option.some (fun y => y * (((if b - a = 0 then 1 else b - a) : ℚ) : ℝ) + (a : ℝ))
  | .normalizer => Option.none

/-- One (input slice, target slice) sample produced by the windowing loop
(pred_helper.py lines 317-335): raw prices and their dates, the input slice
immediately followed by the `n_predict_days`-long target slice. -/
structure WindowPair where
  inputPrices : List ℚ
  inputDates : List ℕ
  targetPrices : List ℚ
  targetDates : List ℕ
  deriving DecidableEq, Repr, Inhabited

/-- Windowing loop of `prepare_scale_train_valid_test` (lines 322-330):
`for idx in range(len(prices) - n_input_days - n_predict_days)`, slicing
`prices[idx : idx + n_input_days]` as input and the immediately following
`n_predict_days` values as target, with parallel date slices.  A negative
Python `range` bound yields no iterations, matching truncated `ℕ`
subtraction. -/
def makeWindows (prices : List ℚ) (dates : List ℕ) (nIn nPred : ℕ) : List WindowPair :=
  (List.range (prices.length - nIn - nPred)).map fun idx =>
    { inputPrices := (prices.drop idx).take nIn
      inputDates := (dates.drop idx).take nIn
      targetPrices := (prices.drop (idx + nIn)).take nPred
      targetDates := (dates.drop (idx + nIn)).take nPred }

/-- Validation step of sklearn `train_test_split` for a float `test_size` and
default `train_size` (`_validate_shuffle_split`): a float `test_size` must lie
strictly between 0 and 1, `n_test = ceil(test_size * n_samples)`,
`n_train = n_samples - n_test`, and an empty resulting train set is a
`ValueError`. -/
def validateSplit (n : ℕ) (testSize : ℚ) : Except String (ℕ × ℕ) :=
  if testSize ≤ 0 ∨ 1 ≤ testSize then
    .error "test_size should be a float in the (0, 1) range"
  else
    let nTest : ℕ := (⌈testSize * n⌉).toNat
    let nTrain : ℕ := n - nTest
    if nTrain = 0 then .error "the resulting train set will be empty"
    else .ok (nTrain, nTest)

/-- Fancy-index selection `a[indices]` applied by `train_test_split` to each of
the parallel arrays (the index lists sklearn builds never go out of range). -/
def selectIdx [Inhabited α] (xs : List α) (indices : List ℕ) : List α :=
  indices.map fun i => xs.getD i default

/-- sklearn `train_test_split` (no stratification, default `train_size`): with
`shuffle=False`, train takes the first `n_train` positions and test the next
`n_test`; with `shuffle=True`, `ShuffleSplit` draws a permutation of the
positions (modelled by the `perm` argument, the RNG draw) and takes
`ind_test = permutation[:n_test]` and
`ind_train = permutation[n_test:n_test + n_train]`. -/
def train_test_split [Inhabited α] (xs : List α) (testSize : ℚ) (shuffle : Bool)
    (perm : List ℕ) : Except String (List α × List α) :=
  match validateSplit xs.length testSize with
  | .error e => .error e
  | .ok (nTrain, nTest) =>
    let idxs :=
      if shuffle then ((perm.drop nTest).take nTrain, perm.take nTest)
      else ((List.range xs.length).take nTrain,
            ((List.range xs.length).drop nTrain).take nTest)
    .ok (selectIdx xs idxs.1, selectIdx xs idxs.2)

/-- Data returned by a successful `prepare_scale_train_valid_test` run.  The
four parallel train arrays (and likewise the four valid arrays) of the source
are bundled componentwise: `train_test_split` applies one index list to all
four parallel arrays, so `X_train`, `X_dates_train`, `y_train`,
`y_dates_train` are exactly the fields of `trainPairs` (prices through the
scaled view `scaledList scaler`). -/
structure PrepareOutput where
  trainPairs : List WindowPair
  validPairs : List WindowPair
  /-- Raw prices of the final `n_input_days` rows (`test_data` before line 310;
  the source returns its scaled view `scaledList scaler tailPrices`). -/
  tailPrices : List ℚ
  /-- Dates of the final `n_input_days` rows (`dates_test`, never scaled). -/
  tailDates : List ℕ
  /-- Fitted preprocesser (`None` when no scaling is active). -/
  scaler : Option Scaler
  deriving DecidableEq, Repr, Inhabited

/-- Result of `prepare_scale_train_valid_test`: the insufficient-data tuple of
`None`s with flag `True` (lines 288-301), a Python exception escaping the body
(modelled as `error`), or the full return tuple with flag `False`. -/
inductive PrepareResult where
  | insufficientData
  | error (msg : String)
  | ok (out : PrepareOutput)
  deriving DecidableEq, Repr, Inhabited

/-- Body of `prepare_scale_train_valid_test` after the optional cutoff
truncation (pred_helper.py lines 303-367), on the possibly truncated series
`data` (rows of (date, price)). -/
def prepareCore (mode : ScalerKind) (data : List (ℕ × ℚ))
    (n_input_days n_predict_days : ℕ) (test_size : ℚ) (no_shuffle : Bool)
    (perm : List ℕ) : PrepareResult :=
  let values := data.map Prod.snd
  let dates := data.map Prod.fst
  -- line 303: test_data = data.iloc[-n_input_days:]
  let test_data := values.drop (values.length - n_input_days)
  -- line 304: train_data = data.iloc[:-n_input_days]
  let train_data := values.take (values.length - n_input_days)
  -- line 307: dates_test = test_data.index
  let dates_test := dates.drop (dates.length - n_input_days)
  -- lines 268-278 and 309: scaler = <mode>; scaler.fit_transform(
  --   data.values.reshape(-1, 1)) fits on the FULL series, and lines 309/312
  -- rebind train_data to the full series, discarding the slice from line 304.
  let scaler := fitScaler mode values
  let train_data := values
  -- line 315: prices = train_data
  let prices := train_data
  let windows := makeWindows prices dates n_input_days n_predict_days
  -- lines 337-353: train_test_split(..., test_size=test_size, shuffle=no_shuffle)
  match train_test_split windows test_size no_shuffle perm with
  | .error e => .error e
  | .ok tv =>
    .ok { trainPairs := tv.1, validPairs := tv.2, tailPrices := test_data,
          tailDates := dates_test, scaler := scaler }

/-- Embedding of `prepare_scale_train_valid_test` (pred_helper.py lines
225-367).  The series is the list of (date, price) rows of the dataframe;
`s_end_date` is the optional cutoff; `no_shuffle` is passed through to
`train_test_split` as its `shuffle` flag (line 352), exactly as in the source;
`perm` models the RNG permutation drawn when shuffling.  The insufficient-data
check (lines 282-301) runs only when a cutoff date is supplied. -/
def prepare_scale_train_valid_test (mode : ScalerKind) (series : List (ℕ × ℚ))
    (n_input_days n_predict_days : ℕ) (test_size : ℚ) (s_end_date : Option ℕ)
    (no_shuffle : Bool) (perm : List ℕ) : PrepareResult :=
  match s_end_date with
  | Option.some d =>
    -- line 283: data = data[data.index <= s_end_date]
    let data := series.filter fun row => row.1 ≤ d
    if n_input_days + n_predict_days > data.length then .insufficientData
    else prepareCore mode data n_input_days n_predict_days test_size no_shuffle perm
  | Option.none =>
    prepareCore mode series n_input_days n_predict_days test_size no_shuffle perm

/-- IEEE-style extended value: exact finite rationals together with the two
infinities and NaN — enough to embed the numpy float semantics the scoring code
relies on (division by an exactly-zero actual value produces a non-finite
value and a runtime warning, never an exception). -/
inductive EVal where
  | fin (q : ℚ)
  | inf
  | neginf
  | nan
  deriving DecidableEq, Repr

namespace EVal

/-- Negation. -/
def neg : EVal → EVal
  | fin a => fin (-a)
  | inf => neginf
  | neginf => inf
  | nan => nan

/-- Addition with IEEE special-value propagation. -/
def add : EVal → EVal → EVal
  | nan, _ => nan
  | _, nan => nan
  | inf, neginf => nan
  | neginf, inf => nan
  | inf, _ => inf
  | _, inf => inf
  | neginf, _ => neginf
  | _, neginf => neginf
  | fin a, fin b => fin (a + b)

/-- Subtraction. -/
def sub (a b : EVal) : EVal := a.add b.neg

/-- Multiplication with IEEE special-value propagation. -/
def mul : EVal → EVal → EVal
  | nan, _ => nan
  | _, nan => nan
  | fin a, fin b => fin (a * b)
  | inf, fin b => if b = 0 then nan else if 0 < b then inf else neginf
  | fin a, inf => if a = 0 then nan else if 0 < a then inf else neginf
  | neginf, fin b => if b = 0 then nan else if 0 < b then neginf else inf
  | fin a, neginf => if a = 0 then nan else if 0 < a then neginf else inf
  | inf, inf => inf
  | neginf, neginf => inf
  | inf, neginf => neginf
  | neginf, inf => neginf

/-- Division with IEEE special-value propagation; a finite value divided by
(positive) zero is a signed infinity, `0/0` is NaN. -/
def div : EVal → EVal → EVal
  | nan, _ => nan
  | _, nan => nan
  | fin a, fin b =>
    if b = 0 then (if a = 0 then nan else if 0 < a then inf else neginf)
    else fin (a / b)
  | fin _, inf => fin 0
  | fin _, neginf => fin 0
  | inf, fin b => if b < 0 then neginf else inf
  | neginf, fin b => if b < 0 then inf else neginf
  | inf, inf => nan
  | inf, neginf => nan
  | neginf, inf => nan
  | neginf, neginf => nan

/-- Absolute value: both infinities map to the positive one. -/
def abs : EVal → EVal
  | fin a => fin |a|
  | inf => inf
  | neginf => inf
  | nan => nan

end EVal

/-- Summation over extended values, as in `np.sum`.  (The summands produced by
the scoring code are exact, so the fold order is immaterial.) -/
def esum (l : List EVal) : EVal := l.foldr EVal.add (.fin 0)

/-- Mean over extended values, as in `np.mean`: sum divided by length (the
mean of an empty array is `0/0 = nan`, as in numpy). -/
def emean (l : List EVal) : EVal := (esum l).div (.fin (l.length : ℚ))

/-- Embedding of `mean_absolute_percentage_error` (pred_helper.py lines
609-612): `np.mean(np.abs((y_true - y_pred) / y_true)) * 100`, under numpy
float semantics.  The function is invoked on same-length vectors; on unequal
lengths numpy raises a broadcast error before any value is produced (handled
in `score`). -/
def mean_absolute_percentage_error (y_true y_pred : List ℚ) : EVal :=
  (emean (List.zipWith
    (fun a p => (((EVal.fin a).sub (EVal.fin p)).div (EVal.fin a)).abs)
    y_true y_pred)).mul (.fin 100)

/-- Embedding of sklearn `mean_absolute_error`. -/
def mean_absolute_error (y_true y_pred : List ℚ) : ℚ :=
  qmean (List.zipWith (fun a p => |a - p|) y_true y_pred)

/-- Embedding of sklearn `mean_squared_error` with `squared=True` (default). -/
def mean_squared_error (y_true y_pred : List ℚ) : ℚ :=
  qmean (List.zipWith (fun a p => (a - p) ^ 2) y_true y_pred)

/-- Embedding of sklearn `mean_squared_error(..., squared=False)`: the square
root of the mean squared error (not a separately accumulated statistic). -/
noncomputable def root_mean_squared_error (y_true y_pred : List ℚ) : ℝ :=
  Real.sqrt ((mean_squared_error y_true y_pred : ℚ) : ℝ)

/-- Embedding of sklearn `r2_score`: `nan` below two samples; with a zero
total sum of squares, 1 for a perfect fit and 0 otherwise; else
`1 - ss_res / ss_tot`. -/
def r2_score (y_true y_pred : List ℚ) : EVal :=
  if y_pred.length < 2 then .nan
  else
    let ssRes := qsum (List.zipWith (fun a p => (a - p) ^ 2) y_true y_pred)
    let ssTot := qsum (y_true.map (fun a => (a - qmean y_true) ^ 2))
    if ssTot = 0 then (if ssRes = 0 then .fin 1 else .fin 0)
    else .fin (1 - ssRes / ssTot)

/-- Fixed KPI bundle assembled by `print_prediction_kpis`
(pred_helper.py lines 615-623). -/
structure Scorecard where
  mape : EVal
  r2 : EVal
  mae : ℚ
  mse : ℚ
  rmse : ℝ

/-- Failure conditions of the scoring operation. -/
inductive ScoreError where
  | shapeMismatch
  | emptyInput
  deriving DecidableEq, Repr

/-- The scoring operation: the KPI computation of `print_prediction_kpis`
(pred_helper.py lines 615-623), which the specification names `score`.
Vectors of unequal length abort with a shape error before any scorecard is
produced: numpy raises on the broadcast inside
`mean_absolute_percentage_error` and sklearn's `check_consistent_length`
raises inside the remaining metrics.  Empty vectors are rejected by sklearn's
`check_array`.  Either way no partial scorecard is built. -/
noncomputable def score (real pred : List ℚ) : Except ScoreError Scorecard :=
  if real.length ≠ pred.length then .error .shapeMismatch
  else if real.length = 0 then .error .emptyInput
  else .ok
    { mape := mean_absolute_percentage_error real pred
      r2 := r2_score real pred
      mae := mean_absolute_error real pred
      mse := mean_squared_error real pred
      rmse := root_mean_squared_error real pred }

/-- Claim-side comparison definition, following the specification's words
literally: `MAPE = mean(|actual - predicted| / actual) * 100`, with the
absolute value applied to the numerator only.  Compared against the source's
`mean_absolute_percentage_error`, which takes the absolute value of the whole
quotient. -/
def mape_spec_formula (actual predicted : List ℚ) : ℚ :=
  qmean (List.zipWith (fun a p => |a - p| / a) actual predicted) * 100

/-- Embedding of `forecast` (pred_helper.py lines 370-401): one predictor
invocation, inverse transform through the supplied fitted scaler when one is
active, and pairing with the future dates
(`pd.DataFrame(future_values, index=future_dates)`). -/
noncomputable def forecast (input_values : List ℝ) (future_dates : List ℕ)
    (model : List ℝ → List ℝ) (scaler : Option Scaler) :
    Except String (List (ℕ × ℝ)) :=
  let raw := model input_values
  match scaler with
  | Option.none => .ok (future_dates.zip raw)
  | Option.some s =>
    match s.inverse with
    | Option.none => .error "scaler has no inverse_transform"
    | Option.some inv => .ok (future_dates.zip (raw.map inv))

/-! ## Helper lemmas on index selection and the split -/

theorem getD_eq_getElem {α : Type*} [Inhabited α] (xs : List α) (i : ℕ)
    (h : i < xs.length) : xs.getD i default = xs[i] := by
  simp [List.getD_eq_getElem?_getD, List.getElem?_eq_getElem h]

theorem selectIdx_range {α : Type*} [Inhabited α] (xs : List α) :
    selectIdx xs (List.range xs.length) = xs := by
  apply List.ext_getElem
  · simp [selectIdx]
  · intro i h1 h2
    simp only [selectIdx, List.getElem_map, List.getElem_range]
    exact getD_eq_getElem xs i h2

theorem selectIdx_take {α : Type*} [Inhabited α] (xs : List α) (is : List ℕ)
    (k : ℕ) : selectIdx xs (is.take k) = (selectIdx xs is).take k := by
  simp [selectIdx, List.map_take]

theorem selectIdx_drop {α : Type*} [Inhabited α] (xs : List α) (is : List ℕ)
    (k : ℕ) : selectIdx xs (is.drop k) = (selectIdx xs is).drop k := by
  simp [selectIdx, List.map_drop]

theorem length_selectIdx {α : Type*} [Inhabited α] (xs : List α)
    (is : List ℕ) : (selectIdx xs is).length = is.length := by
  simp [selectIdx]

theorem length_makeWindows (prices : List ℚ) (dates : List ℕ) (nIn nPred : ℕ) :
    (makeWindows prices dates nIn nPred).length = prices.length - nIn - nPred := by
  simp [makeWindows]

theorem validateSplit_ok (n : ℕ) (f : ℚ) (hf0 : 0 < f) (hf1 : f < 1)
    (hlt : (⌈f * n⌉).toNat < n) :
    validateSplit n f = .ok (n - (⌈f * n⌉).toNat, (⌈f * n⌉).toNat) := by
  have h1 : ¬ (f ≤ 0 ∨ 1 ≤ f) := by push_neg; exact ⟨hf0, hf1⟩
  have h2 : ¬ (n - (⌈f * n⌉).toNat = 0) := by omega
  simp [validateSplit, h1, h2]

/-- Master lemma on the embedded sklearn split: for a fraction strictly inside
(0, 1) whose test share does not exhaust the samples, the split succeeds, it
conserves the sample count, train and test together are a permutation of the
input (given that the RNG draw is a permutation when shuffling), and without
shuffling train/test are exactly the chronological prefix/suffix. -/
theorem train_test_split_spec {α : Type*} [Inhabited α] (xs : List α) (f : ℚ)
    (shuffle : Bool) (perm : List ℕ) (hf0 : 0 < f) (hf1 : f < 1)
    (hlt : (⌈f * xs.length⌉).toNat < xs.length)
    (hperm : shuffle = true → perm.Perm (List.range xs.length)) :
    ∃ tr va, train_test_split xs f shuffle perm = .ok (tr, va) ∧
      tr.length + va.length = xs.length ∧
      (tr ++ va).Perm xs ∧
      (shuffle = false →
        tr = xs.take (xs.length - (⌈f * xs.length⌉).toNat) ∧
        va = xs.drop (xs.length - (⌈f * xs.length⌉).toNat)) := by
  have hval := validateSplit_ok xs.length f hf0 hf1 hlt
  cases shuffle with
  | false =>
    refine ⟨xs.take (xs.length - (⌈f * xs.length⌉).toNat),
            xs.drop (xs.length - (⌈f * xs.length⌉).toNat), ?_, ?_, ?_, ?_⟩
    · unfold train_test_split
      rw [hval]
      have e1 : selectIdx xs ((List.range xs.length).take
          (xs.length - (⌈f * xs.length⌉).toNat)) =
          xs.take (xs.length - (⌈f * xs.length⌉).toNat) := by
        rw [selectIdx_take, selectIdx_range]
      have e2 : selectIdx xs (((List.range xs.length).drop
          (xs.length - (⌈f * xs.length⌉).toNat)).take (⌈f * xs.length⌉).toNat) =
          xs.drop (xs.length - (⌈f * xs.length⌉).toNat) := by
        rw [selectIdx_take, selectIdx_drop, selectIdx_range]
        exact List.take_of_length_le (by rw [List.length_drop]; omega)
      simp [e1, e2]
    · rw [List.length_take, List.length_drop]
      omega
    · rw [List.take_append_drop]
    · exact fun _ => ⟨rfl, rfl⟩
  | true =>
    have hp := hperm rfl
    have hplen : perm.length = xs.length := by
      simpa using hp.length_eq
    have hdroplen : (perm.drop (⌈f * xs.length⌉).toNat).length =
        xs.length - (⌈f * xs.length⌉).toNat := by
      simp [hplen]
    refine ⟨selectIdx xs (perm.drop (⌈f * xs.length⌉).toNat),
            selectIdx xs (perm.take (⌈f * xs.length⌉).toNat), ?_, ?_, ?_, ?_⟩
    · unfold train_test_split
      rw [hval]
      have htake : (perm.drop (⌈f * xs.length⌉).toNat).take
          (xs.length - (⌈f * xs.length⌉).toNat) =
          perm.drop (⌈f * xs.length⌉).toNat := by
        rw [← hdroplen]
        exact List.take_length _
      simp [htake]
    · rw [length_selectIdx, length_selectIdx, hdroplen, List.length_take]
      omega
    · have h1 : (perm.drop (⌈f * xs.length⌉).toNat ++
          perm.take (⌈f * xs.length⌉).toNat).Perm perm := by
        refine (List.perm_append_comm).trans ?_
        rw [List.take_append_drop]
      have e1 : selectIdx xs (perm.drop (⌈f * xs.length⌉).toNat) ++
          selectIdx xs (perm.take (⌈f * xs.length⌉).toNat) =
          selectIdx xs (perm.drop (⌈f * xs.length⌉).toNat ++
            perm.take (⌈f * xs.length⌉).toNat) := by
        simp [selectIdx]
      have h4 : (selectIdx xs (List.range xs.length)).Perm xs := by
        rw [selectIdx_range]
      rw [e1]
      exact ((h1.map _).trans (hp.map _)).trans h4
    · exact fun h => absurd h (by simp)

/-- Truncation step of `prepare_scale_train_valid_test`: the series restricted
to rows at or before the cutoff date, or left whole when no cutoff is given. -/
def truncate (series : List (ℕ × ℚ)) : Option ℕ → List (ℕ × ℚ)
  | Option.some d => series.filter fun row => row.1 ≤ d
  | Option.none => series

/-- Master lemma on the embedded `prepare_scale_train_valid_test` body: when
the test fraction is strictly inside (0, 1) and its test share leaves at least
one training window, the run succeeds; the scaler it returns was fitted on the
full value column of `data`; the train/valid partition conserves the window
pairs (a permutation of the windowing output, given a genuine RNG permutation
when shuffling), and without shuffling it is exactly the chronological
prefix/suffix split. -/
theorem prepareCore_spec (mode : ScalerKind) (data : List (ℕ × ℚ))
    (nIn nPred : ℕ) (f : ℚ) (shuf : Bool) (perm : List ℕ)
    (hf0 : 0 < f) (hf1 : f < 1)
    (hlt : (⌈f * ((data.length - nIn - nPred : ℕ) : ℚ)⌉).toNat <
      data.length - nIn - nPred)
    (hperm : shuf = true → perm.Perm (List.range (data.length - nIn - nPred))) :
    ∃ out, prepareCore mode data nIn nPred f shuf perm = .ok out ∧
      out.scaler = fitScaler mode (data.map Prod.snd) ∧
      out.tailPrices = (data.map Prod.snd).drop (data.length - nIn) ∧
      out.tailDates = (data.map Prod.fst).drop (data.length - nIn) ∧
      out.trainPairs.length + out.validPairs.length = data.length - nIn - nPred ∧
      (out.trainPairs ++ out.validPairs).Perm
        (makeWindows (data.map Prod.snd) (data.map Prod.fst) nIn nPred) ∧
      (shuf = false →
        out.trainPairs = (makeWindows (data.map Prod.snd) (data.map Prod.fst)
            nIn nPred).take (data.length - nIn - nPred -
              (⌈f * ((data.length - nIn - nPred : ℕ) : ℚ)⌉).toNat) ∧
        out.validPairs = (makeWindows (data.map Prod.snd) (data.map Prod.fst)
            nIn nPred).drop (data.length - nIn - nPred -
              (⌈f * ((data.length - nIn - nPred : ℕ) : ℚ)⌉).toNat)) := by
  have hW : (makeWindows (data.map Prod.snd) (data.map Prod.fst) nIn nPred).length
      = data.length - nIn - nPred := by
    rw [length_makeWindows]; simp
  obtain ⟨tr, va, hsplit, hlen, hpermW, hnoshuf⟩ :=
    train_test_split_spec (makeWindows (data.map Prod.snd) (data.map Prod.fst)
      nIn nPred) f shuf perm hf0 hf1 (by rw [hW]; exact hlt)
      (by rw [hW]; exact hperm)
  refine ⟨⟨tr, va, (data.map Prod.snd).drop (data.length - nIn),
          (data.map Prod.fst).drop (data.length - nIn),
          fitScaler mode (data.map Prod.snd)⟩, ?_, rfl, rfl, rfl, ?_, ?_, ?_⟩
  · simp only [prepareCore, List.length_map, hsplit]
  · rw [hW] at hlen; exact hlen
  · exact hpermW
  · intro h
    obtain ⟨h1, h2⟩ := hnoshuf h
    rw [hW] at h1 h2
    exact ⟨h1, h2⟩

/-- When the (possibly truncated) series is long enough, the cutoff branch of
`prepare_scale_train_valid_test` reduces to its core body on the truncated
series. -/
theorem prepare_eq_core (mode : ScalerKind) (series : List (ℕ × ℚ))
    (nIn nPred : ℕ) (f : ℚ) (s_end : Option ℕ) (shuf : Bool) (perm : List ℕ)
    (hsuff : nIn + nPred ≤ (truncate series s_end).length) :
    prepare_scale_train_valid_test mode series nIn nPred f s_end shuf perm =
      prepareCore mode (truncate series s_end) nIn nPred f shuf perm := by
  cases s_end with
  | none => rfl
  | some d =>
    simp only [prepare_scale_train_valid_test, truncate]
    rw [if_neg]
    simp only [truncate] at hsuff
    omega

/-- On an empty sample list the embedded `train_test_split` always fails: an
out-of-range fraction is rejected outright, and otherwise the resulting train
set would be empty. -/
theorem train_test_split_nil_error {α : Type*} [Inhabited α] (f : ℚ)
    (shuf : Bool) (perm : List ℕ) :
    ∃ e, train_test_split ([] : List α) f shuf perm = .error e := by
  by_cases hc : f ≤ 0 ∨ 1 ≤ f
  · exact ⟨"test_size should be a float in the (0, 1) range",
      by simp [train_test_split, validateSplit, hc]⟩
  · refine ⟨"the resulting train set will be empty", ?_⟩
    simp [train_test_split, validateSplit, hc]

/-! ## Claim theorems -/

/-- Claim C1 (code bug).  The claim says no training or validation window pair
returned by `prepare` contains any of the final `n_input` points.  The code
violates it: lines 309/312 of pred_helper.py rebind `train_data` to the full
series, discarding the `data.iloc[:-n_input_days]` slice of line 304, so the
windowing loop runs over the full series — contradicting the code's own
comment (lines 279-280) that the last `n_input_days` points "are not fed into
training".  Evaluating the embedded code on a 5-point series with
`n_input = 2`, `n_predict = 1`, `test_size = 1/2`, no cutoff and no shuffling:
the held-out tail is the points at dates 3 and 4, yet the validation window
pair has target date 3. -/
theorem c1_tail_point_in_validation_window :
    ∃ out, prepare_scale_train_valid_test ScalerKind.none
        [(0, 1), (1, 2), (2, 3), (3, 4), (4, 5)] 2 1 (1/2) Option.none false []
        = PrepareResult.ok out ∧
      out.tailDates = [3, 4] ∧
      ∃ w ∈ out.validPairs, ∃ d ∈ w.targetDates, d ∈ out.tailDates := by
  refine ⟨⟨[⟨[1, 2], [0, 1], [3], [2]⟩], [⟨[2, 3], [1, 2], [4], [3]⟩],
          [4, 5], [3, 4], Option.none⟩, ?_, rfl, ?_⟩
  · norm_num [prepare_scale_train_valid_test, prepareCore, makeWindows,
      train_test_split, validateSplit, selectIdx, fitScaler, List.range_succ]
    decide
  · decide

/-- Claim C2 (code bug).  The claim (and the specification) say the scaler is
fitted on the training-eligible portion only — the series minus the held-out
final `n_input` points.  Line 309 of pred_helper.py instead fits it via
`scaler.fit_transform(data.values.reshape(-1, 1))` on the FULL series.  On the
value column `[0, 0, 0, 6]` with `n_input = 1` under min-max scaling, the
returned fitted state is `(min, max) = (0, 6)` — the fit saw the held-out
tail value 6 — while fitting on the training-eligible portion `[0, 0, 0]`
would give `(0, 0)`. -/
theorem c2_scaler_fitted_on_full_series :
    ∃ out, prepare_scale_train_valid_test ScalerKind.minmax
        [(0, 0), (1, 0), (2, 0), (3, 6)] 1 1 (1/2) Option.none false []
        = PrepareResult.ok out ∧
      out.scaler = fitScaler ScalerKind.minmax [0, 0, 0, 6] ∧
      out.scaler = Option.some (Scaler.minmax 0 6) ∧
      fitScaler ScalerKind.minmax ([0, 0, 0, 6].take 3) =
        Option.some (Scaler.minmax 0 0) ∧
      Option.some (Scaler.minmax (0 : ℚ) 6) ≠ Option.some (Scaler.minmax (0 : ℚ) 0) := by
  refine ⟨⟨[⟨[0], [0], [0], [1]⟩], [⟨[0], [1], [0], [2]⟩], [6], [3],
          Option.some (.minmax 0 6)⟩, ?_, by decide, rfl, by decide, by decide⟩
  norm_num [prepare_scale_train_valid_test, prepareCore, makeWindows,
    train_test_split, validateSplit, selectIdx, fitScaler, listMin, listMax,
    List.range_succ]
  decide

/-- Claim C3 counterexample.  Without a cutoff date the insufficient-data
check of pred_helper.py (lines 282-301) is skipped entirely: on a series of
length 5 with `n_input = 10`, `n_predict = 5` and no cutoff, the run reaches
`train_test_split` with zero window pairs, which raises (the resulting train
set would be empty) — it does not return `insufficient_data = true`. -/
theorem c3_counterexample :
    prepare_scale_train_valid_test ScalerKind.none
        [(0, 1), (1, 2), (2, 3), (3, 4), (4, 5)] 10 5 (1/10) Option.none true []
      = PrepareResult.error "the resulting train set will be empty" ∧
    prepare_scale_train_valid_test ScalerKind.none
        [(0, 1), (1, 2), (2, 3), (3, 4), (4, 5)] 10 5 (1/10) Option.none true []
      ≠ PrepareResult.insufficientData := by
  have h : prepare_scale_train_valid_test ScalerKind.none
      [(0, 1), (1, 2), (2, 3), (3, 4), (4, 5)] 10 5 (1/10) Option.none true []
      = PrepareResult.error "the resulting train set will be empty" := by
    norm_num [prepare_scale_train_valid_test, prepareCore, makeWindows,
      train_test_split, validateSplit, selectIdx, fitScaler]
  exact ⟨h, by rw [h]; exact fun hc => PrepareResult.noConfusion hc⟩

/-- Claim C3 as amended.  When a cutoff date is given and the truncated series
is shorter than `n_input + n_predict`, `prepare` returns the
insufficient-data result (all data fields absent) and raises no exception;
when no cutoff date is given the length check is skipped, and a too-short
series instead makes the split step fail with an error. -/
theorem c3_insufficiency_check_only_with_cutoff :
    (∀ (mode : ScalerKind) (series : List (ℕ × ℚ)) (nIn nPred : ℕ) (f : ℚ)
        (shuf : Bool) (perm : List ℕ) (d : ℕ),
      (series.filter fun row => row.1 ≤ d).length < nIn + nPred →
      prepare_scale_train_valid_test mode series nIn nPred f (Option.some d)
        shuf perm = PrepareResult.insufficientData) ∧
    (∀ (mode : ScalerKind) (series : List (ℕ × ℚ)) (nIn nPred : ℕ) (f : ℚ)
        (shuf : Bool) (perm : List ℕ),
      series.length < nIn + nPred →
      ∃ e, prepare_scale_train_valid_test mode series nIn nPred f Option.none
        shuf perm = PrepareResult.error e) := by
  constructor
  · intro mode series nIn nPred f shuf perm d h
    simp only [prepare_scale_train_valid_test]
    rw [if_pos (by omega)]
  · intro mode series nIn nPred f shuf perm h
    have hW : makeWindows (series.map Prod.snd) (series.map Prod.fst) nIn nPred
        = [] := by
      rw [← List.length_eq_zero, length_makeWindows, List.length_map]
      omega
    obtain ⟨e, he⟩ := train_test_split_nil_error (α := WindowPair) f shuf perm
    refine ⟨e, ?_⟩
    show prepareCore mode series nIn nPred f shuf perm = PrepareResult.error e
    simp only [prepareCore, hW, he]

/-- Witness for C3 as amended, at the specification's concrete numbers. -/
theorem c3_insufficiency_witness :
    prepare_scale_train_valid_test ScalerKind.none [(0, 1)] 3 2 (1/10)
        (Option.some 5) true [] = PrepareResult.insufficientData ∧
    ∃ e, prepare_scale_train_valid_test ScalerKind.none [(0, 1)] 3 2 (1/10)
        Option.none true [] = PrepareResult.error e :=
  ⟨c3_insufficiency_check_only_with_cutoff.1 ScalerKind.none [(0, 1)] 3 2
      (1/10) true [] 5 (by decide),
   c3_insufficiency_check_only_with_cutoff.2 ScalerKind.none [(0, 1)] 3 2
      (1/10) true [] (by decide)⟩

/-- Claim C4 (confirmed).  The windowing step produces exactly
`L - n_input - n_predict` window pairs when its series of length `L` is
strictly longer than `n_input + n_predict`, and none at all otherwise.  (Due
to the slip recorded for C1/C2, `prepare` hands the windowing loop the full
truncated series rather than the training-eligible portion; the count law is a
property of the windowing step as a function of the series it receives.) -/
theorem c4_window_count (prices : List ℚ) (dates : List ℕ) (nIn nPred : ℕ) :
    (nIn + nPred < prices.length →
      (makeWindows prices dates nIn nPred).length = prices.length - nIn - nPred) ∧
    (prices.length ≤ nIn + nPred →
      (makeWindows prices dates nIn nPred).length = 0) := by
  refine ⟨fun _ => length_makeWindows prices dates nIn nPred, fun h => ?_⟩
  rw [length_makeWindows]
  omega

/-- Witness for C4 at concrete lengths. -/
theorem c4_window_count_witness :
    (makeWindows [1, 2, 3, 4, 5] [0, 1, 2, 3, 4] 2 1).length = 5 - 2 - 1 ∧
    (makeWindows [1, 2] [0, 1] 2 1).length = 0 :=
  ⟨(c4_window_count [1, 2, 3, 4, 5] [0, 1, 2, 3, 4] 2 1).1 (by decide),
   (c4_window_count [1, 2] [0, 1] 2 1).2 (by decide)⟩

/-- Claim C5 counterexample.  The fraction `0` lies in `[0, 1]` and two window
pairs exist, yet `prepare` returns no partitions at all: sklearn rejects a
float `test_size` outside the open interval (0, 1) with a `ValueError`, so the
split-conservation law cannot hold at the endpoints of `[0, 1]`. -/
theorem c5_counterexample :
    prepare_scale_train_valid_test ScalerKind.none
        [(0, 1), (1, 2), (2, 3), (3, 4)] 1 1 0 Option.none false []
      = PrepareResult.error "test_size should be a float in the (0, 1) range" := by
  norm_num [prepare_scale_train_valid_test, prepareCore, makeWindows,
    train_test_split, validateSplit, selectIdx, fitScaler]

/-- Claim C5 as amended.  For a validation fraction strictly between 0 and 1
whose test share `ceil(f * N)` leaves a nonempty train side, the partition
returned by `prepare` conserves the window pairs: the train and valid lengths
sum to the number of window pairs, and train ++ valid is a permutation of the
windowing output (no pair dropped or duplicated), assuming the RNG draw is a
genuine permutation when shuffling.  At `f = 0`, `f = 1` or when the train
side would be empty, the split raises and no partitions are returned. -/
theorem c5_split_conservation (mode : ScalerKind) (series : List (ℕ × ℚ))
    (nIn nPred : ℕ) (f : ℚ) (s_end : Option ℕ) (shuf : Bool) (perm : List ℕ)
    (hf0 : 0 < f) (hf1 : f < 1)
    (hlt : (⌈f * (((truncate series s_end).length - nIn - nPred : ℕ) : ℚ)⌉).toNat <
      (truncate series s_end).length - nIn - nPred)
    (hperm : shuf = true →
      perm.Perm (List.range ((truncate series s_end).length - nIn - nPred))) :
    ∃ out, prepare_scale_train_valid_test mode series nIn nPred f s_end shuf perm
        = PrepareResult.ok out ∧
      out.trainPairs.length + out.validPairs.length =
        (makeWindows ((truncate series s_end).map Prod.snd)
          ((truncate series s_end).map Prod.fst) nIn nPred).length ∧
      (out.trainPairs ++ out.validPairs).Perm
        (makeWindows ((truncate series s_end).map Prod.snd)
          ((truncate series s_end).map Prod.fst) nIn nPred) := by
  obtain ⟨out, hok, _, _, _, hlen, hpermW, _⟩ :=
    prepareCore_spec mode (truncate series s_end) nIn nPred f shuf perm
      hf0 hf1 hlt hperm
  refine ⟨out, ?_, ?_, hpermW⟩
  · rw [prepare_eq_core mode series nIn nPred f s_end shuf perm (by omega), hok]
  · rw [length_makeWindows, List.length_map]
    exact hlen

/-- Witness for C5 as amended, on a four-point series with `f = 1/2`. -/
theorem c5_split_conservation_witness :
    ∃ out, prepare_scale_train_valid_test ScalerKind.none
        [(0, 10), (1, 20), (2, 30), (3, 40)] 1 1 (1/2) Option.none false []
        = PrepareResult.ok out ∧
      out.trainPairs.length + out.validPairs.length =
        (makeWindows ((truncate [(0, 10), (1, 20), (2, 30), (3, 40)]
            Option.none).map Prod.snd)
          ((truncate [(0, 10), (1, 20), (2, 30), (3, 40)]
            Option.none).map Prod.fst) 1 1).length ∧
      (out.trainPairs ++ out.validPairs).Perm
        (makeWindows ((truncate [(0, 10), (1, 20), (2, 30), (3, 40)]
            Option.none).map Prod.snd)
          ((truncate [(0, 10), (1, 20), (2, 30), (3, 40)]
            Option.none).map Prod.fst) 1 1) :=
  c5_split_conservation ScalerKind.none [(0, 10), (1, 20), (2, 30), (3, 40)]
    1 1 (1/2) Option.none false [] (by norm_num) (by norm_num)
    (by norm_num [truncate]) (fun h => nomatch h)

/-- Claim C9 counterexample.  With one window pair, `f = 1/2` strictly inside
(0, 1) and shuffling disabled, the claim asks for a chronological split with an
empty train side and the single pair in validation; the code instead raises
(sklearn rejects an empty resulting train set) and returns nothing. -/
theorem c9_counterexample :
    prepare_scale_train_valid_test ScalerKind.none [(0, 1), (1, 2), (2, 3)]
        1 1 (1/2) Option.none false []
      = PrepareResult.error "the resulting train set will be empty" := by
  have hc : (⌈(1/2 : ℚ)⌉).toNat = 1 := by
    rw [show (⌈(1/2 : ℚ)⌉ : ℤ) = 1 by norm_num [Int.ceil_eq_iff]]
    rfl
  norm_num [prepare_scale_train_valid_test, prepareCore, makeWindows,
    train_test_split, validateSplit, selectIdx, fitScaler, hc]

/-- Claim C9 as amended.  With shuffling disabled and a fraction strictly
between 0 and 1 whose test share `ceil(N * f)` is smaller than `N`, the split
performed by `prepare` is deterministic and chronological with the earliest
windows in training: train is exactly the first `N - ceil(N * f)` window pairs
in original order and valid exactly the last `ceil(N * f)` in original order;
when `ceil(N * f) = N` the split fails with an error instead. -/
theorem c9_chronological_split (mode : ScalerKind) (series : List (ℕ × ℚ))
    (nIn nPred : ℕ) (f : ℚ) (s_end : Option ℕ) (perm : List ℕ)
    (hf0 : 0 < f) (hf1 : f < 1)
    (hlt : (⌈f * (((truncate series s_end).length - nIn - nPred : ℕ) : ℚ)⌉).toNat <
      (truncate series s_end).length - nIn - nPred) :
    ∃ out, prepare_scale_train_valid_test mode series nIn nPred f s_end false perm
        = PrepareResult.ok out ∧
      out.trainPairs = (makeWindows ((truncate series s_end).map Prod.snd)
          ((truncate series s_end).map Prod.fst) nIn nPred).take
            ((truncate series s_end).length - nIn - nPred -
              (⌈f * (((truncate series s_end).length - nIn - nPred : ℕ) : ℚ)⌉).toNat) ∧
      out.validPairs = (makeWindows ((truncate series s_end).map Prod.snd)
          ((truncate series s_end).map Prod.fst) nIn nPred).drop
            ((truncate series s_end).length - nIn - nPred -
              (⌈f * (((truncate series s_end).length - nIn - nPred : ℕ) : ℚ)⌉).toNat) := by
  obtain ⟨out, hok, _, _, _, _, _, hchron⟩ :=
    prepareCore_spec mode (truncate series s_end) nIn nPred f false perm
      hf0 hf1 hlt (fun h => nomatch h)
  obtain ⟨h1, h2⟩ := hchron rfl
  refine ⟨out, ?_, h1, h2⟩
  rw [prepare_eq_core mode series nIn nPred f s_end false perm (by omega), hok]

/-- Witness for C9 as amended, on a four-point series with `f = 1/2`. -/
theorem c9_chronological_split_witness :
    ∃ out, prepare_scale_train_valid_test ScalerKind.none
        [(0, 10), (1, 20), (2, 30), (3, 40)] 1 1 (1/2) Option.none false []
        = PrepareResult.ok out ∧
      out.trainPairs = (makeWindows ((truncate [(0, 10), (1, 20), (2, 30), (3, 40)]
          Option.none).map Prod.snd)
        ((truncate [(0, 10), (1, 20), (2, 30), (3, 40)]
          Option.none).map Prod.fst) 1 1).take
          ((truncate [(0, 10), (1, 20), (2, 30), (3, 40)] Option.none).length - 1 - 1 -
            (⌈(1/2 : ℚ) * ((((truncate [(0, 10), (1, 20), (2, 30), (3, 40)]
              Option.none).length - 1 - 1 : ℕ)) : ℚ)⌉).toNat) ∧
      out.validPairs = (makeWindows ((truncate [(0, 10), (1, 20), (2, 30), (3, 40)]
          Option.none).map Prod.snd)
        ((truncate [(0, 10), (1, 20), (2, 30), (3, 40)]
          Option.none).map Prod.fst) 1 1).drop
          ((truncate [(0, 10), (1, 20), (2, 30), (3, 40)] Option.none).length - 1 - 1 -
            (⌈(1/2 : ℚ) * ((((truncate [(0, 10), (1, 20), (2, 30), (3, 40)]
              Option.none).length - 1 - 1 : ℕ)) : ℚ)⌉).toNat) :=
  c9_chronological_split ScalerKind.none [(0, 10), (1, 20), (2, 30), (3, 40)]
    1 1 (1/2) Option.none [] (by norm_num) (by norm_num) (by norm_num [truncate])

/-- Claim C6 (confirmed).  With no scaling active, every training and
validation window pair returned by `prepare` is literally a window of the raw
(possibly truncated) price series — its price fields are untransformed slices
of the series — and the scaled view the source returns is the identity
embedding of those raw values (the fitted-scaler slot is the explicit
no-scaling marker). -/
theorem c6_no_scaling_passthrough (series : List (ℕ × ℚ)) (nIn nPred : ℕ)
    (f : ℚ) (s_end : Option ℕ) (shuf : Bool) (perm : List ℕ)
    (hf0 : 0 < f) (hf1 : f < 1)
    (hlt : (⌈f * (((truncate series s_end).length - nIn - nPred : ℕ) : ℚ)⌉).toNat <
      (truncate series s_end).length - nIn - nPred)
    (hperm : shuf = true →
      perm.Perm (List.range ((truncate series s_end).length - nIn - nPred))) :
    ∃ out, prepare_scale_train_valid_test ScalerKind.none series nIn nPred f
        s_end shuf perm = PrepareResult.ok out ∧
      out.scaler = Option.none ∧
      ∀ w ∈ out.trainPairs ++ out.validPairs,
        w ∈ makeWindows ((truncate series s_end).map Prod.snd)
          ((truncate series s_end).map Prod.fst) nIn nPred ∧
        scaledList out.scaler w.inputPrices
          = w.inputPrices.map (fun q => (q : ℝ)) ∧
        scaledList out.scaler w.targetPrices
          = w.targetPrices.map (fun q => (q : ℝ)) := by
  obtain ⟨out, hok, hscaler, _, _, _, hpermW, _⟩ :=
    prepareCore_spec ScalerKind.none (truncate series s_end) nIn nPred f shuf
      perm hf0 hf1 hlt hperm
  have hnone : out.scaler = Option.none := by
    rw [hscaler]; rfl
  refine ⟨out, ?_, hnone, ?_⟩
  · rw [prepare_eq_core ScalerKind.none series nIn nPred f s_end shuf perm
      (by omega), hok]
  · intro w hw
    refine ⟨hpermW.mem_iff.mp hw, ?_, ?_⟩ <;> rw [hnone] <;> rfl

/-- Witness for C6 on a four-point series with `f = 1/2`. -/
theorem c6_no_scaling_passthrough_witness :
    ∃ out, prepare_scale_train_valid_test ScalerKind.none
        [(0, 10), (1, 20), (2, 30), (3, 40)] 1 1 (1/2) Option.none false []
        = PrepareResult.ok out ∧
      out.scaler = Option.none ∧
      ∀ w ∈ out.trainPairs ++ out.validPairs,
        w ∈ makeWindows ((truncate [(0, 10), (1, 20), (2, 30), (3, 40)]
            Option.none).map Prod.snd)
          ((truncate [(0, 10), (1, 20), (2, 30), (3, 40)]
            Option.none).map Prod.fst) 1 1 ∧
        scaledList out.scaler w.inputPrices
          = w.inputPrices.map (fun q => (q : ℝ)) ∧
        scaledList out.scaler w.targetPrices
          = w.targetPrices.map (fun q => (q : ℝ)) :=
  c6_no_scaling_passthrough [(0, 10), (1, 20), (2, 30), (3, 40)] 1 1 (1/2)
    Option.none false [] (by norm_num) (by norm_num) (by norm_num [truncate])
    (fun h => nomatch h)

/-! ## Helper lemmas on extended values -/

theorem EVal.abs_ne_neginf (x : EVal) : x.abs ≠ EVal.neginf := by
  cases x <;> simp [EVal.abs]

theorem EVal.add_nonfin {x y : EVal} (hx : x ≠ EVal.neginf)
    (hy : y ≠ EVal.neginf)
    (hcase : (x = EVal.inf ∨ x = EVal.nan) ∨ (y = EVal.inf ∨ y = EVal.nan)) :
    x.add y = EVal.inf ∨ x.add y = EVal.nan := by
  cases x <;> cases y <;> simp_all [EVal.add]

theorem EVal.add_ne_neginf {x y : EVal} (hx : x ≠ EVal.neginf)
    (hy : y ≠ EVal.neginf) : x.add y ≠ EVal.neginf := by
  cases x <;> cases y <;> simp_all [EVal.add]

theorem esum_ne_neginf {l : List EVal} (h : ∀ x ∈ l, x ≠ EVal.neginf) :
    esum l ≠ EVal.neginf := by
  induction l with
  | nil => simp [esum]
  | cons a t ih =>
    exact EVal.add_ne_neginf (h a (List.mem_cons_self a t))
      (ih fun x hx => h x (List.mem_cons_of_mem a hx))

theorem esum_nonfin {l : List EVal} (h : ∀ x ∈ l, x ≠ EVal.neginf)
    (hex : ∃ x ∈ l, x = EVal.inf ∨ x = EVal.nan) :
    esum l = EVal.inf ∨ esum l = EVal.nan := by
  induction l with
  | nil => simp at hex
  | cons a t ih =>
    have ha : a ≠ EVal.neginf := h a (List.mem_cons_self a t)
    have ht : ∀ x ∈ t, x ≠ EVal.neginf :=
      fun x hx => h x (List.mem_cons_of_mem a hx)
    show EVal.add a (esum t) = EVal.inf ∨ EVal.add a (esum t) = EVal.nan
    rcases hex with ⟨x, hx, hcase⟩
    rcases List.mem_cons.mp hx with rfl | hxt
    · exact EVal.add_nonfin ha (esum_ne_neginf ht) (Or.inl hcase)
    · exact EVal.add_nonfin ha (esum_ne_neginf ht) (Or.inr (ih ht ⟨x, hxt, hcase⟩))

theorem zipWith_getD_mem {α β γ : Type*} (f : α → β → γ) (d₁ : α) (d₂ : β) :
    ∀ (l₁ : List α) (l₂ : List β) (i : ℕ), i < l₁.length → i < l₂.length →
      f (l₁.getD i d₁) (l₂.getD i d₂) ∈ List.zipWith f l₁ l₂ := by
  intro l₁
  induction l₁ with
  | nil => intro l₂ i h1 h2; simp at h1
  | cons a t ih =>
    intro l₂ i h1 h2
    cases l₂ with
    | nil => simp at h2
    | cons b s =>
      cases i with
      | zero => simp [List.getD]
      | succ j =>
        simp only [List.zipWith_cons_cons, List.getD_cons_succ]
        exact List.mem_cons_of_mem _
          (ih s j (by simpa using h1) (by simpa using h2))

theorem mem_zipWith {α β γ : Type*} {f : α → β → γ} {l₁ : List α} {l₂ : List β}
    {x : γ} (hx : x ∈ List.zipWith f l₁ l₂) : ∃ u v, x = f u v := by
  induction l₁ generalizing l₂ with
  | nil => simp at hx
  | cons a t ih =>
    cases l₂ with
    | nil => simp at hx
    | cons b s =>
      rcases List.mem_cons.mp hx with rfl | h2
      · exact ⟨a, b, rfl⟩
      · exact ih h2

theorem esum_map_fin (l : List ℚ) : esum (l.map EVal.fin) = EVal.fin (qsum l) := by
  induction l with
  | nil => rfl
  | cons a t ih =>
    show EVal.add (EVal.fin a) (esum (t.map EVal.fin)) = EVal.fin (qsum (a :: t))
    rw [ih]
    rfl

/-- With every actual entry nonzero, the per-entry MAPE terms are exact:
the extended-value computation collapses to the rational `|(x - y) / x|`. -/
theorem mape_terms_fin (a p : List ℚ) (ha : ∀ x ∈ a, x ≠ 0) :
    List.zipWith (fun x y => (((EVal.fin x).sub (EVal.fin y)).div (EVal.fin x)).abs) a p
      = (List.zipWith (fun x y => |(x - y) / x|) a p).map EVal.fin := by
  induction a generalizing p with
  | nil => simp
  | cons x t ih =>
    cases p with
    | nil => simp
    | cons y s =>
      have hx : x ≠ 0 := ha x (List.mem_cons_self x t)
      have ht : ∀ z ∈ t, z ≠ 0 := fun z hz => ha z (List.mem_cons_of_mem x hz)
      simp only [List.zipWith_cons_cons, List.map_cons, ih s ht]
      congr 1
      simp [EVal.sub, EVal.neg, EVal.add, EVal.div, EVal.abs, hx,
        sub_eq_add_neg]

/-! ## Scoring claim theorems -/

/-- Claim C7 counterexample.  The claimed formula
`mean(|actual - predicted| / actual) * 100` (absolute value over the numerator
only) disagrees with the code when an actual entry is negative: on
`actual = [-10]`, `predicted = [0]` the code computes
`mean(|(a - p) / a|) * 100 = 100`, while the claimed formula gives `-100`. -/
theorem c7_counterexample :
    mean_absolute_percentage_error [-10] [0] = EVal.fin 100 ∧
    mape_spec_formula [-10] [0] = -100 ∧
    EVal.fin (100 : ℚ) ≠ EVal.fin (-100 : ℚ) := by
  refine ⟨?_, ?_, ?_⟩
  · norm_num [mean_absolute_percentage_error, emean, esum, EVal.sub, EVal.neg,
      EVal.add, EVal.div, EVal.abs, EVal.mul]
  · norm_num [mape_spec_formula, qmean, qsum]
  · intro h
    exact absurd (EVal.fin.inj h) (by norm_num)

/-- Claim C7 as amended.  For equal-length positive-length vectors with every
actual entry nonzero, `score` computes MAPE as
`mean(|(actual - predicted) / actual|) * 100` — the absolute value applied to
the whole quotient, which agrees with the claimed formula whenever all actual
entries are positive — and `score([10,20],[12,18])` yields MAE = 2, MSE = 4,
RMSE = 2 and MAPE = 15. -/
theorem c7_mape_formula_and_scorecard :
    (∀ a p : List ℚ, a.length = p.length → 0 < a.length → (∀ x ∈ a, x ≠ 0) →
      mean_absolute_percentage_error a p =
        EVal.fin (qmean (List.zipWith (fun x y => |(x - y) / x|) a p) * 100)) ∧
    score [10, 20] [12, 18] =
      Except.ok ⟨EVal.fin 15, EVal.fin (21/25), 2, 4, (2 : ℝ)⟩ := by
  constructor
  · intro a p hlen hpos ha
    have hz : (List.zipWith (fun x y => |(x - y) / x|) a p).length = a.length := by
      rw [List.length_zipWith]
      omega
    have hne : ((a.length : ℚ)) ≠ 0 := Nat.cast_ne_zero.mpr (by omega)
    unfold mean_absolute_percentage_error emean
    rw [mape_terms_fin a p ha, esum_map_fin, List.length_map, hz]
    simp [EVal.div, EVal.mul, hne, qmean, hz]
  · have hmape : mean_absolute_percentage_error [10, 20] [12, 18] = EVal.fin 15 := by
      norm_num [mean_absolute_percentage_error, emean, esum, EVal.sub, EVal.neg,
        EVal.add, EVal.div, EVal.abs, EVal.mul, abs_of_nonneg]
    have hr2 : r2_score [10, 20] [12, 18] = EVal.fin (21/25) := by
      norm_num [r2_score, qmean, qsum]
    have hmae : mean_absolute_error [10, 20] [12, 18] = 2 := by
      norm_num [mean_absolute_error, qmean, qsum, abs_of_nonneg]
    have hmse : mean_squared_error [10, 20] [12, 18] = 4 := by
      norm_num [mean_squared_error, qmean, qsum]
    have hrmse : root_mean_squared_error [10, 20] [12, 18] = 2 := by
      rw [root_mean_squared_error, hmse]
      rw [show ((4 : ℚ) : ℝ) = (2 : ℝ) ^ 2 by norm_num]
      exact Real.sqrt_sq (by norm_num)
    simp [score, hmape, hr2, hmae, hmse, hrmse]

/-- Witness for C7 as amended, at `actual = [2]`, `predicted = [1]`. -/
theorem c7_mape_formula_witness :
    mean_absolute_percentage_error [2] [1] =
      EVal.fin (qmean (List.zipWith (fun x y => |(x - y) / x|) [2] [1]) * 100) :=
  c7_mape_formula_and_scorecard.1 [2] [1] rfl (by norm_num) (by norm_num)

/-- Claim C8 (confirmed).  Vectors of different lengths make `score` fail with
the shape-mismatch condition and produce no partial scorecard; in particular
`score([1,2,3],[1,2])` fails that way. -/
theorem c8_shape_mismatch :
    (∀ real pred : List ℚ, real.length ≠ pred.length →
      score real pred = Except.error ScoreError.shapeMismatch) ∧
    score [1, 2, 3] [1, 2] = Except.error ScoreError.shapeMismatch := by
  have h : ∀ real pred : List ℚ, real.length ≠ pred.length →
      score real pred = Except.error ScoreError.shapeMismatch := by
    intro real pred hlen
    simp [score, hlen]
  exact ⟨h, h [1, 2, 3] [1, 2] (by norm_num)⟩

/-- Witness for C8 at another concrete shape mismatch. -/
theorem c8_shape_mismatch_witness :
    score [0] [] = Except.error ScoreError.shapeMismatch :=
  c8_shape_mismatch.1 [0] [] (by norm_num)

/-- Claim C10 (confirmed).  When some actual entry is exactly zero and the
corresponding predicted entry differs from it, the MAPE computation raises no
exception (it is total here, as in numpy, which only emits a runtime warning)
and its value is non-finite — positive infinity or NaN — rather than a
`NumericDegenerate` failure. -/
theorem c10_zero_actual_nonfinite (a p : List ℚ) (hlen : a.length = p.length)
    (hpos : 0 < a.length)
    (hzero : ∃ i, i < a.length ∧ a.getD i 0 = 0 ∧ p.getD i 0 ≠ 0) :
    mean_absolute_percentage_error a p = EVal.inf ∨
    mean_absolute_percentage_error a p = EVal.nan := by
  obtain ⟨i, hi, ha0, hp0⟩ := hzero
  have hip : i < p.length := by omega
  set g : ℚ → ℚ → EVal :=
    fun x y => (((EVal.fin x).sub (EVal.fin y)).div (EVal.fin x)).abs with hg
  have hkey : ∀ y : ℚ, y ≠ 0 → g 0 y = EVal.inf := by
    intro y hy
    rcases lt_trichotomy y 0 with hsgn | heq | hsgn
    · simp [hg, EVal.sub, EVal.neg, EVal.add, EVal.div, EVal.abs, hy, hsgn]
    · exact absurd heq hy
    · have h2 : ¬ (y < 0) := not_lt.mpr hsgn.le
      simp [hg, EVal.sub, EVal.neg, EVal.add, EVal.div, EVal.abs, hy, h2]
  have hgi : g (a.getD i 0) (p.getD i 0) = EVal.inf := by
    rw [ha0]
    exact hkey _ hp0
  have hmem : EVal.inf ∈ List.zipWith g a p :=
    hgi ▸ zipWith_getD_mem g 0 0 a p i hi hip
  have hnoneg : ∀ x ∈ List.zipWith g a p, x ≠ EVal.neginf := by
    intro x hx
    obtain ⟨u, v, rfl⟩ := mem_zipWith hx
    exact EVal.abs_ne_neginf _
  have hsum := esum_nonfin hnoneg ⟨EVal.inf, hmem, Or.inl rfl⟩
  have hna : ¬ ((a.length : ℚ) < 0) := not_lt.mpr (Nat.cast_nonneg _)
  have hnp : ¬ ((p.length : ℚ) < 0) := not_lt.mpr (Nat.cast_nonneg _)
  show (emean (List.zipWith g a p)).mul (EVal.fin 100) = EVal.inf ∨
    (emean (List.zipWith g a p)).mul (EVal.fin 100) = EVal.nan
  unfold emean
  rcases hsum with h1 | h1 <;> rw [h1]
  · left
    norm_num [EVal.div, EVal.mul, hna, hnp]
  · right
    norm_num [EVal.div, EVal.mul]

/-- Witness for C10 at `actual = [0]`, `predicted = [1]`. -/
theorem c10_zero_actual_nonfinite_witness :
    mean_absolute_percentage_error [0] [1] = EVal.inf ∨
    mean_absolute_percentage_error [0] [1] = EVal.nan :=
  c10_zero_actual_nonfinite [0] [1] rfl (by norm_num)
    ⟨0, by norm_num, by norm_num [List.getD], by norm_num [List.getD]⟩

end PredHelper
